import Mathlib

/-!
# Verification of the EVO export progress/frame-streaming loop

Shallow embedding of the export loop of `src/export.py` (`Export.accept`,
lines 1020-1145), the progress-bar update slot (`Export.updateProgressBar`,
lines 318-327) and the digit-precision computation (lines 1040-1051).

Modelling conventions:
* Python `time.time()` readings are an oracle `clock : ℕ → ℚ`, indexed by the
  order of the calls (call 0 is `start_time_export`, call 1 is the initial
  `last_exported_time`, then one call per loop iteration for
  `end_time_export` and one extra call per display tick for the refreshed
  `last_exported_time`).
* The shared cancellation flag `self.exporting` is an oracle
  `cancelAt : Int → Bool`: `cancelAt f` is the value of `not self.exporting`
  read at the per-frame check (line 1082) after frame `f` was written.
* `w.WriteFrame(self.timeline.GetFrame(frame))` is an oracle
  `writeError : Int → Option Msg`: `none` means the write succeeds, `some m`
  means the call raises an exception whose `str()` is `m`.
* Exception messages are `List Char`.
* Python floats are modelled by exact arithmetic: `ℚ` inside the loop and
  `ℝ` for the transcendental digit-count formula.
* `round` is Python 3 `round` (banker's rounding, half to even).
* The `ExportFrame.emit` payload is modelled by `ExportEvent`; the
  `format_of_progress_string` argument (`"%4.<digits>f%% "`) is represented
  by the datum that determines it: the `delta` of the display tick that last
  set it (`none` for the initial `"%4.1f%% "` of line 970), the digit count
  being `digits_after_decimalpoint` of that delta.  `ExportStarted` /
  `ExportEnded` are separate signals and are not part of `events`.
-/

namespace EVO

/-- An exception message (`str(e)` in the Python source), as a character list. -/
abbrev Msg := List Char

/-- Floor of a rational number. -/
def pyFloor (q : ℚ) : Int := ⌊q⌋

/-- Python 3 `round` on an exact rational: round half to even. -/
def pyRound (q : ℚ) : Int :=
  let f := pyFloor q
  let r := q - (f : ℚ)
  if r < 1/2 then f
  else if (1 : ℚ)/2 < r then f + 1
  else if f % 2 = 0 then f else f + 1

/-- Line 1027: `progressstep = max(1, round((end_frame - start_frame) / 1000))`. -/
def progressstep (startF endF : Int) : Int :=
  max 1 (pyRound (((endF - startF : Int) : ℚ) / 1000))

/-- Failure categories distinguished by the `except` block (lines 1106-1124):
one per recognized marker substring, plus a generic one for everything else. -/
inductive FailureKind where
  | invalidChannels
  | invalidSampleRate
  | invalidFormat
  | invalidCodec
  | errorEncodingVideo
  | unknown
deriving DecidableEq

/-- The Python `in` operator on strings: `pat` occurs as a contiguous
substring of `l`. -/
def pyIn (pat : Msg) : Msg → Bool
  | [] => pat.isPrefixOf []
  | c :: rest => pat.isPrefixOf (c :: rest) || pyIn pat rest

/-- Lines 1106-1124: classify an exception by substring-matching its message,
in the order of the `elif` chain. -/
def classify (msg : Msg) : FailureKind :=
  if pyIn ("InvalidChannels".toList) msg then .invalidChannels
  else if pyIn ("InvalidSampleRate".toList) msg then .invalidSampleRate
  else if pyIn ("InvalidFormat".toList) msg then .invalidFormat
  else if pyIn ("InvalidCodec".toList) msg then .invalidCodec
  else if pyIn ("ErrorEncodingVideo".toList) msg then .errorEncodingVideo
  else .unknown

/-- The part of a message before the first occurrence of `"> "`:
this is `error_type_str.split("> ")[0]` of line 1127. -/
def takeUntilSep : Msg → Msg
  | [] => []
  | c :: rest =>
    if ("> ".toList).isPrefixOf (c :: rest) then [] else c :: takeUntilSep rest

/-- Line 1127: `friendly_error = error_type_str.split("> ")[0].replace("<", "")`. -/
def friendlyError (msg : Msg) : Msg :=
  (takeUntilSep msg).filter (fun c => c ≠ '<')

/-- The window-title message passed to `ExportFrame.emit`: initially `""`
(line 1024), then either the remaining-time string, the finalizing string
(line 1059), or, after the loop, the elapsed-time string (line 1090).
The numeric payloads of `titlestring` are kept; its formatting is not. -/
inductive Title where
  | empty
  | remaining (secondsLeft : Int) (fps : ℚ)
  | finalizing
  | elapsed (secondsRun : Int) (fps : ℚ)
deriving DecidableEq

/-- Whether a title is the after-loop elapsed-time label of line 1090. -/
def Title.isElapsed : Title → Bool
  | .elapsed _ _ => true
  | _ => false

/-- One `ExportFrame.emit` payload (lines 1064-1070 and 1092-1098).
`fmtDelta` determines the `format_of_progress_string` argument: `none` is the
initial `"%4.1f%% "`, `some d` the format whose digit count is
`digits_after_decimalpoint d`. -/
structure ExportEvent where
  label : Title
  startFrame : Int
  endFrame : Int
  frame : Int
  fmtDelta : Option ℚ
deriving DecidableEq

/-- Terminal result of one export attempt (the spec's `ExportOutcome`):
on the code side, `completed` vs `cancelled` is the `self.exporting` value
tested at line 1148, and `failed` is the `except` path with the classified
kind and the surfaced `friendly_error` detail. -/
inductive Outcome where
  | completed (framesWritten : ℕ) (secondsRun : Int)
  | cancelled (framesWritten : ℕ)
  | failed (kind : FailureKind) (detail : Msg)
deriving DecidableEq

/-- Observable result of `Export.accept` past the range check: the successful
`WriteFrame` calls in order, the `ExportFrame` events in order, the outcome,
how many times `w.Close()` ran, and whether the timeline cache teardown
(lines 1139-1142) ran. -/
structure RunResult where
  writes : List Int
  events : List ExportEvent
  outcome : Outcome
  sinkCloseCount : ℕ
  cacheReleased : Bool
deriving DecidableEq

/-- Inputs of one export attempt: the frame range and the three environment
oracles (wall clock, cancellation flag, sink write failures). -/
structure Cfg where
  startFrame : Int
  endFrame : Int
  clock : ℕ → ℚ
  cancelAt : Int → Bool
  writeError : Int → Option Msg

/-- Mutable locals of the export loop (lines 1028-1032, 967, 820-821, 1024),
plus the clock-call counter and the accumulated observable trace.
`lastEndTime` is `end_time_export`, which Python leaves unbound until the
first iteration assigns it (line 1037). -/
structure LoopState where
  startTime : ℚ
  lastExportedTime : ℚ
  lastDisplayedPortion : ℚ
  titleMessage : Title
  fmtDelta : Option ℚ
  fpsEncode : ℚ
  maxFrame : Int
  clockIdx : ℕ
  lastEndTime : Option ℚ
  events : List ExportEvent
  writes : List Int

/-- Line 1056: `seconds_left = round((start_time_export - end_time_export) *
(frame - end_frame_export) / (frame - start_frame_export))`. -/
def seconds_left (startTime endTime : ℚ) (frame endF startF : Int) : Int :=
  pyRound ((startTime - endTime) * ((frame : ℚ) - (endF : ℚ)) / ((frame : ℚ) - (startF : ℚ)))

/-- Lines 1036-1073: the per-iteration progress block.  Reads the clock into
`end_time_export`; on a display tick (`frame % progressstep == 0` or more
than one second since the last displayed tick) computes the exported portion
and its delta, refreshes `last_exported_time`, updates the ETA title when
both guards of line 1055 hold, and emits one `ExportFrame` event. -/
def tickPhase (cfg : Cfg) (f : Int) (s : LoopState) : LoopState :=
  let endTime := cfg.clock s.clockIdx
  let s1 : LoopState := { s with clockIdx := s.clockIdx + 1, lastEndTime := some endTime }
  if f % progressstep cfg.startFrame cfg.endFrame = 0 ∨ 1 < endTime - s1.lastExportedTime then
    let portion : ℚ := ((f : ℚ) - (cfg.startFrame : ℚ)) / ((cfg.endFrame : ℚ) - (cfg.startFrame : ℚ))
    let delta : ℚ := portion - s1.lastDisplayedPortion
    let s2 : LoopState := { s1 with lastDisplayedPortion := portion, fmtDelta := some delta }
    let s3 : LoopState := { s2 with lastExportedTime := cfg.clock s2.clockIdx, clockIdx := s2.clockIdx + 1 }
    let s4 : LoopState :=
      if f - cfg.startFrame ≠ 0 ∧ endTime - s3.startTime ≠ 0 then
        { s3 with
          fpsEncode := ((f : ℚ) - (cfg.startFrame : ℚ)) / (endTime - s3.startTime)
          titleMessage :=
            if f = cfg.endFrame then Title.finalizing
            else Title.remaining (seconds_left s3.startTime endTime f cfg.endFrame cfg.startFrame)
              (((f : ℚ) - (cfg.startFrame : ℚ)) / (endTime - s3.startTime)) }
      else s3
    { s4 with
      events := s4.events ++
        [{ label := s4.titleMessage, startFrame := cfg.startFrame, endFrame := cfg.endFrame,
           frame := f, fmtDelta := s4.fmtDelta }] }
  else s1

/-- How the `for` loop of line 1035 was left: ran through the whole range,
broke at the per-frame cancellation check (line 1083), or raised out of
`WriteFrame` (line 1079). -/
inductive LoopExit where
  | finished (s : LoopState)
  | canceled (s : LoopState)
  | failedWrite (msg : Msg) (s : LoopState)

/-- The loop state carried by an exit, whichever way the loop was left. -/
def LoopExit.state : LoopExit → LoopState
  | .finished s => s
  | .canceled s => s
  | .failedWrite _ s => s

/-- Lines 1035-1083: iterate `n` frames starting at `f`.  Each iteration runs
the progress block, records `max_frame = frame` (line 1076), performs the
write (line 1079), and then checks the cancellation flag (line 1082). -/
def loopExport (cfg : Cfg) : ℕ → Int → LoopState → LoopExit
  | 0, _, s => .finished s
  | n + 1, f, s =>
    let s1 := tickPhase cfg f s
    let s2 : LoopState := { s1 with maxFrame := f }
    match cfg.writeError f with
    | some msg => .failedWrite msg s2
    | none =>
      let s3 : LoopState := { s2 with writes := s2.writes ++ [f] }
      if cfg.cancelAt f then .canceled s3 else loopExport cfg n (f + 1) s3

/-- Lines 1028-1032 with 967, 970, 820-821 and 1024: the loop locals right
before the first iteration. -/
def initState (cfg : Cfg) : LoopState :=
  { startTime := cfg.clock 0
    lastExportedTime := cfg.clock 1
    lastDisplayedPortion := 0
    titleMessage := .empty
    fmtDelta := none
    fpsEncode := 0
    maxFrame := 0
    clockIdx := 2
    lastEndTime := none
    events := []
    writes := [] }

/-- The message of the `NameError` Python raises at line 1089 when the loop
body never ran, leaving `end_time_export` unbound (modelled without the
quote characters of the CPython text). -/
def nameErrorMsg : Msg := "NameError: name end_time_export is not defined".toList

/-- Lines 1086-1098 and 1135-1145 on the non-exception path: close the
writer, emit the single final event with the elapsed-time title and
`max_frame`, then release the timeline cache.  When the loop body never ran,
line 1089 raises a `NameError` after the close, landing in the `except`
block instead of emitting the final event. -/
def afterLoop (cfg : Cfg) (wasCanceled : Bool) (s : LoopState) : RunResult :=
  match s.lastEndTime with
  | none =>
    { writes := s.writes
      events := s.events
      outcome := .failed (classify nameErrorMsg) (friendlyError nameErrorMsg)
      sinkCloseCount := 1
      cacheReleased := true }
  | some te =>
    let secondsRun := pyRound (te - s.startTime)
    { writes := s.writes
      events := s.events ++
        [{ label := Title.elapsed secondsRun s.fpsEncode, startFrame := cfg.startFrame,
           endFrame := cfg.endFrame, frame := s.maxFrame, fmtDelta := s.fmtDelta }]
      outcome :=
        if wasCanceled then .cancelled s.writes.length
        else .completed s.writes.length secondsRun
      sinkCloseCount := 1
      cacheReleased := true }

/-- Lines 1020-1145: one export attempt past the writer setup.  On a
`WriteFrame` exception the `except` block (lines 1100-1133) classifies the
message and surfaces `friendly_error`; `w.Close()` at line 1086 is skipped,
while the timeline cache teardown (lines 1139-1142) still runs. -/
def run (cfg : Cfg) : RunResult :=
  match loopExport cfg (cfg.endFrame + 1 - cfg.startFrame).toNat cfg.startFrame (initState cfg) with
  | .finished s => afterLoop cfg false s
  | .canceled s => afterLoop cfg true s
  | .failedWrite msg s =>
    { writes := s.writes
      events := s.events
      outcome := .failed (classify msg) (friendlyError msg)
      sinkCloseCount := 0
      cacheReleased := true }

/-- Lines 824-842: `Export.accept` rejects an equal-bounds range with an
error dialog before any writer work (`none`); otherwise the export runs. -/
def accept (cfg : Cfg) : Option RunResult :=
  if cfg.startFrame = cfg.endFrame then none else some (run cfg)

/-- The progress-bar text chosen by `updateProgressBar`: either the
formatted percentage value or the literal `"100%"` fallback. -/
inductive PercentText where
  | formatted (value : ℚ)
  | hundred
deriving DecidableEq

/-- Lines 318-327 (`Export.updateProgressBar`): the percentage string is the
formatted `(current - start) / (end - start) * 100` only when
`end_frame - start_frame > 0`, and the literal `"100%"` otherwise. -/
def updateProgressBar (startF endF currentF : Int) : PercentText :=
  if 0 < endF - startF then
    .formatted (((currentF : ℚ) - (startF : ℚ)) / ((endF : ℚ) - (startF : ℚ)) * 100)
  else .hundred

/-- Lines 1040-1051: the decimal-digit count of the progress format string.
`math.ceil(-2.0 - math.log10(delta))` when the delta of displayed portions is
positive, `1` otherwise, then clamped below by `1` and above by `5` by the
two consecutive `if` statements. -/
noncomputable def digits_after_decimalpoint (delta : ℝ) : Int :=
  let d0 : Int := if 0 < delta then ⌈(-2 : ℝ) - Real.logb 10 delta⌉ else 1
  let d1 : Int := if d0 < 1 then 1 else d0
  if 5 < d1 then 5 else d1

/-- The `n` consecutive frames starting at `f`. -/
def frameSeqN (f : Int) (n : ℕ) : List Int :=
  (List.range n).map (fun i : ℕ => f + (i : Int))

/-- The frames of the inclusive range `[a, b]` in ascending order. -/
def frameSeq (a b : Int) : List Int := frameSeqN a (b + 1 - a).toNat

/-- Invariant: the window title is never the after-loop elapsed-time label
while the loop runs, and no emitted loop event ever carries it. -/
def stateOK (s : LoopState) : Prop :=
  s.titleMessage.isElapsed = false ∧ ∀ e ∈ s.events, e.label.isElapsed = false

/-- Concrete attempt: range 1-3, constant clock, never cancelled, all writes
succeed. -/
def cfgC1w : Cfg :=
  { startFrame := 1
    endFrame := 3
    clock := fun _ => 0
    cancelAt := fun _ => false
    writeError := fun _ => none }

/-- Concrete attempt: range 1-3, the write of frame 2 raises an
`InvalidChannels` exception. -/
def cfgC2x : Cfg :=
  { startFrame := 1
    endFrame := 3
    clock := fun _ => 0
    cancelAt := fun _ => false
    writeError := fun f => if f = 2 then some ("InvalidChannels".toList) else none }

/-- Concrete attempt: range 1-4, the cancel flag becomes (and stays) set
while frame 2 is processed. -/
def cfgC3w : Cfg :=
  { startFrame := 1
    endFrame := 4
    clock := fun _ => 0
    cancelAt := fun g => decide (2 ≤ g)
    writeError := fun _ => none }

/-- Concrete attempt: range 2-4, constant clock, never cancelled, all writes
succeed. -/
def cfgC4w : Cfg :=
  { startFrame := 2
    endFrame := 4
    clock := fun _ => 0
    cancelAt := fun _ => false
    writeError := fun _ => none }

/-- Concrete attempt: range 1-2, constant clock, never cancelled, all writes
succeed.  With `progressstep = 1` every frame is a display tick, so the
final event repeats frame 2. -/
def cfgC6x : Cfg :=
  { startFrame := 1
    endFrame := 2
    clock := fun _ => 0
    cancelAt := fun _ => false
    writeError := fun _ => none }

/-- Concrete attempt: the single-frame range 100-100 rejected by `accept`. -/
def cfgC9w : Cfg :=
  { startFrame := 100
    endFrame := 100
    clock := fun _ => 0
    cancelAt := fun _ => false
    writeError := fun _ => none }

/-- Concrete attempt: range 1-3 with the cancel flag already set before the
loop begins. -/
def cfgC10w : Cfg :=
  { startFrame := 1
    endFrame := 3
    clock := fun _ => 0
    cancelAt := fun _ => true
    writeError := fun _ => none }

/-- A message with none of the five markers but with angle-bracket markup,
which `friendly_error` mangles. -/
def msgC7x : Msg := "<foo> bar".toList

/-- A message carrying only the `InvalidCodec` marker. -/
def msgC7w : Msg := "xInvalidCodec failure".toList

/-- A marker-free message without angle-bracket markup. -/
def msgC7p : Msg := "plain failure".toList

theorem tickPhase_writes (cfg : Cfg) (f : Int) (s : LoopState) :
    (tickPhase cfg f s).writes = s.writes := by
  unfold tickPhase
  dsimp only
  split_ifs <;> rfl

theorem tickPhase_maxFrame (cfg : Cfg) (f : Int) (s : LoopState) :
    (tickPhase cfg f s).maxFrame = s.maxFrame := by
  unfold tickPhase
  dsimp only
  split_ifs <;> rfl

theorem tickPhase_lastEndTime (cfg : Cfg) (f : Int) (s : LoopState) :
    (tickPhase cfg f s).lastEndTime = some (cfg.clock s.clockIdx) := by
  unfold tickPhase
  dsimp only
  split_ifs <;> rfl

theorem tickPhase_title (cfg : Cfg) (f : Int) (s : LoopState) :
    (tickPhase cfg f s).titleMessage = s.titleMessage ∨
    (tickPhase cfg f s).titleMessage = .finalizing ∨
    ∃ a b, (tickPhase cfg f s).titleMessage = .remaining a b := by
  unfold tickPhase
  dsimp only
  split_ifs with h1 h2 h3
  · right; left; rfl
  · right; right; exact ⟨_, _, rfl⟩
  · left; rfl
  · left; rfl

theorem tickPhase_events (cfg : Cfg) (f : Int) (s : LoopState) :
    (tickPhase cfg f s).events = s.events ∨
    ∃ ev : ExportEvent, ev.frame = f ∧ ev.label = (tickPhase cfg f s).titleMessage ∧
      (tickPhase cfg f s).events = s.events ++ [ev] := by
  unfold tickPhase
  dsimp only
  split_ifs with h1 h2 h3
  · right; exact ⟨_, rfl, rfl, rfl⟩
  · right; exact ⟨_, rfl, rfl, rfl⟩
  · right; exact ⟨_, rfl, rfl, rfl⟩
  · left; rfl

theorem frameSeqN_zero (f : Int) : frameSeqN f 0 = [] := rfl

theorem frameSeqN_succ (f : Int) (n : ℕ) :
    frameSeqN f (n + 1) = f :: frameSeqN (f + 1) n := by
  unfold frameSeqN
  rw [List.range_succ_eq_map, List.map_cons, List.map_map]
  refine congrArg₂ _ (by simp) (List.map_congr_left ?_)
  intro i _
  simp only [Function.comp_apply, Nat.succ_eq_add_one]
  push_cast
  ring

theorem frameSeqN_length (f : Int) (n : ℕ) : (frameSeqN f n).length = n := by
  simp [frameSeqN]

theorem frameSeqN_chain (f : Int) (n : ℕ) :
    List.Chain' (· < ·) (frameSeqN f n) := by
  unfold frameSeqN
  rw [List.chain'_map]
  refine List.Pairwise.chain' ?_
  refine (List.pairwise_lt_range n).imp ?_
  intro a b hab
  omega

theorem frameSeqN_mem_le {f x : Int} {n : ℕ} (h : x ∈ frameSeqN f n) :
    f ≤ x ∧ x ≤ f + n - 1 := by
  unfold frameSeqN at h
  obtain ⟨i, hi, rfl⟩ := List.mem_map.mp h
  rw [List.mem_range] at hi
  omega

theorem loopExport_zero (cfg : Cfg) (f : Int) (s : LoopState) :
    loopExport cfg 0 f s = .finished s := rfl

theorem loopExport_succ (cfg : Cfg) (n : ℕ) (f : Int) (s : LoopState) :
    loopExport cfg (n + 1) f s =
      (match cfg.writeError f with
       | some msg => .failedWrite msg { tickPhase cfg f s with maxFrame := f }
       | none =>
         if cfg.cancelAt f then
           .canceled { tickPhase cfg f s with maxFrame := f, writes := (tickPhase cfg f s).writes ++ [f] }
         else
           loopExport cfg n (f + 1)
             { tickPhase cfg f s with maxFrame := f, writes := (tickPhase cfg f s).writes ++ [f] }) := rfl

theorem loopExport_clean (cfg : Cfg) (hc : ∀ g, cfg.cancelAt g = false)
    (hw : ∀ g, cfg.writeError g = none) :
    ∀ (n : ℕ) (f : Int) (s : LoopState), ∃ s',
      loopExport cfg n f s = .finished s' ∧
      s'.writes = s.writes ++ frameSeqN f n ∧
      (n = 0 → s' = s) ∧
      (0 < n → s'.maxFrame = f + n - 1 ∧ s'.lastEndTime.isSome = true) := by
  intro n
  induction n with
  | zero =>
    intro f s
    exact ⟨s, rfl, by simp [frameSeqN_zero], fun _ => rfl, fun h => absurd h (by omega)⟩
  | succ n ih =>
    intro f s
    rw [loopExport_succ, hw f, hc f]
    dsimp only
    rw [if_neg (by simp)]
    obtain ⟨s', h1, h2, h3, h4⟩ :=
      ih (f + 1) { tickPhase cfg f s with maxFrame := f, writes := (tickPhase cfg f s).writes ++ [f] }
    refine ⟨s', h1, ?_, fun h => absurd h (by omega), ?_⟩
    · rw [h2]
      dsimp only
      rw [tickPhase_writes]
      have : (k : ℕ) → frameSeqN f (k + 1) = f :: frameSeqN (f + 1) k := frameSeqN_succ f
      rw [this n, List.append_assoc]
      rfl
    · intro _
      rcases Nat.eq_zero_or_pos n with rfl | hn
      · rw [h3 rfl]
        refine ⟨by push_cast; ring, ?_⟩
        rw [show ({ tickPhase cfg f s with maxFrame := f, writes := (tickPhase cfg f s).writes ++ [f] } : LoopState).lastEndTime = (tickPhase cfg f s).lastEndTime from rfl]
        rw [tickPhase_lastEndTime]
        rfl
      · obtain ⟨hm, he⟩ := h4 hn
        exact ⟨by rw [hm]; push_cast; ring, he⟩

theorem loopExport_cancel (cfg : Cfg) (k : Int)
    (hw : ∀ g, cfg.writeError g = none)
    (hc : ∀ g, cfg.cancelAt g = decide (k ≤ g)) :
    ∀ (n : ℕ) (f : Int) (s : LoopState), f ≤ k → k < f + n → ∃ s',
      loopExport cfg n f s = .canceled s' ∧
      s'.writes = s.writes ++ frameSeqN f (k + 1 - f).toNat ∧
      s'.maxFrame = k ∧ s'.lastEndTime.isSome = true := by
  intro n
  induction n with
  | zero =>
    intro f s h1 h2
    exact absurd h2 (by push_cast; omega)
  | succ n ih =>
    intro f s h1 h2
    rw [loopExport_succ, hw f, hc f]
    dsimp only
    by_cases hfk : k ≤ f
    · have hne : f = k := le_antisymm h1 hfk
      rw [if_pos (by simp [hfk])]
      subst hne
      refine ⟨_, rfl, ?_, rfl, ?_⟩
      · dsimp only
        rw [tickPhase_writes]
        rw [show (f + 1 - f).toNat = 1 from by omega]
        rw [show frameSeqN f 1 = [f] from by
          rw [show (1 : ℕ) = 0 + 1 from rfl, frameSeqN_succ, frameSeqN_zero]]
      · dsimp only
        rw [tickPhase_lastEndTime]
        rfl
    · rw [if_neg (by simp [hfk])]
      obtain ⟨s', h1', h2', h3', h4'⟩ :=
        ih (f + 1) { tickPhase cfg f s with maxFrame := f, writes := (tickPhase cfg f s).writes ++ [f] }
          (by omega) (by push_cast at h2 ⊢; omega)
      refine ⟨s', h1', ?_, h3', h4'⟩
      rw [h2']
      dsimp only
      rw [tickPhase_writes]
      rw [show (k + 1 - f).toNat = (k + 1 - (f + 1)).toNat + 1 from by omega]
      rw [frameSeqN_succ, List.append_assoc]
      rfl

theorem loopExport_fail (cfg : Cfg) (k : Int) (msg : Msg)
    (hk : cfg.writeError k = some msg) :
    ∀ (n : ℕ) (f : Int) (s : LoopState), f ≤ k → k < f + n →
      (∀ g, f ≤ g → g < k → cfg.writeError g = none ∧ cfg.cancelAt g = false) →
      ∃ s', loopExport cfg n f s = .failedWrite msg s' := by
  intro n
  induction n with
  | zero =>
    intro f s h1 h2 _
    exact absurd h2 (by push_cast; omega)
  | succ n ih =>
    intro f s h1 h2 hbefore
    rw [loopExport_succ]
    by_cases hfk : f = k
    · subst hfk
      rw [hk]
      exact ⟨_, rfl⟩
    · obtain ⟨hwf, hcf⟩ := hbefore f le_rfl (by omega)
      rw [hwf, hcf]
      dsimp only
      rw [if_neg (by simp)]
      exact ih (f + 1) _ (by omega) (by push_cast at h2 ⊢; omega)
        (fun g hg1 hg2 => hbefore g (by omega) hg2)

theorem loopExport_noFail (cfg : Cfg) (hw : ∀ g, cfg.writeError g = none) :
    ∀ (n : ℕ) (f : Int) (s : LoopState),
      (∃ s', loopExport cfg n f s = .finished s') ∨
      (∃ s', loopExport cfg n f s = .canceled s') := by
  intro n
  induction n with
  | zero => intro f s; exact .inl ⟨s, rfl⟩
  | succ n ih =>
    intro f s
    rw [loopExport_succ, hw f]
    dsimp only
    by_cases hcf : cfg.cancelAt f = true
    · rw [if_pos hcf]
      exact .inr ⟨_, rfl⟩
    · rw [if_neg hcf]
      exact ih (f + 1) _

theorem loopExport_writes_mono (cfg : Cfg) :
    ∀ (n : ℕ) (f : Int) (s : LoopState), ∃ t,
      ((loopExport cfg n f s).state).writes = s.writes ++ t := by
  intro n
  induction n with
  | zero => intro f s; exact ⟨[], by simp [loopExport_zero, LoopExit.state]⟩
  | succ n ih =>
    intro f s
    rw [loopExport_succ]
    cases hwf : cfg.writeError f with
    | some msg =>
      refine ⟨[], ?_⟩
      dsimp only [LoopExit.state]
      rw [show ({ tickPhase cfg f s with maxFrame := f } : LoopState).writes = (tickPhase cfg f s).writes from rfl]
      rw [tickPhase_writes]
      simp
    | none =>
      dsimp only
      by_cases hcf : cfg.cancelAt f = true
      · rw [if_pos hcf]
        refine ⟨[f], ?_⟩
        dsimp only [LoopExit.state]
        rw [tickPhase_writes]
      · rw [if_neg hcf]
        obtain ⟨t, ht⟩ :=
          ih (f + 1) { tickPhase cfg f s with maxFrame := f, writes := (tickPhase cfg f s).writes ++ [f] }
        refine ⟨f :: t, ?_⟩
        rw [ht]
        dsimp only
        rw [tickPhase_writes, List.append_assoc]
        rfl

theorem loopExport_first_write (cfg : Cfg) (n : ℕ) (f : Int) (s : LoopState)
    (hn : 0 < n) (hwf : cfg.writeError f = none) :
    ∃ t, ((loopExport cfg n f s).state).writes = s.writes ++ f :: t := by
  obtain ⟨m, rfl⟩ : ∃ m, n = m + 1 := ⟨n - 1, by omega⟩
  rw [loopExport_succ, hwf]
  dsimp only
  by_cases hcf : cfg.cancelAt f = true
  · rw [if_pos hcf]
    refine ⟨[], ?_⟩
    dsimp only [LoopExit.state]
    rw [tickPhase_writes]
  · rw [if_neg hcf]
    obtain ⟨t, ht⟩ := loopExport_writes_mono cfg m (f + 1)
      { tickPhase cfg f s with maxFrame := f, writes := (tickPhase cfg f s).writes ++ [f] }
    refine ⟨t, ?_⟩
    rw [ht]
    dsimp only
    rw [tickPhase_writes, List.append_assoc]
    rfl

theorem tickPhase_stateOK (cfg : Cfg) (f : Int) (s : LoopState)
    (h : stateOK s) : stateOK (tickPhase cfg f s) := by
  obtain ⟨h1, h2⟩ := h
  have htitle : (tickPhase cfg f s).titleMessage.isElapsed = false := by
    rcases tickPhase_title cfg f s with ht | ht | ⟨a, b, ht⟩ <;> rw [ht]
    · exact h1
    · rfl
    · rfl
  refine ⟨htitle, ?_⟩
  rcases tickPhase_events cfg f s with he | ⟨ev, _, hl, he⟩
  · rw [he]; exact h2
  · rw [he]
    intro e hme
    rcases List.mem_append.mp hme with hm | hm
    · exact h2 e hm
    · rw [List.mem_singleton.mp hm, hl]
      exact htitle

theorem loopExport_stateOK (cfg : Cfg) :
    ∀ (n : ℕ) (f : Int) (s : LoopState), stateOK s →
      stateOK ((loopExport cfg n f s).state) := by
  intro n
  induction n with
  | zero => intro f s h; exact h
  | succ n ih =>
    intro f s h
    rw [loopExport_succ]
    have h2 : stateOK { tickPhase cfg f s with maxFrame := f } :=
      tickPhase_stateOK cfg f s h
    cases hwf : cfg.writeError f with
    | some msg => exact h2
    | none =>
      dsimp only
      by_cases hcf : cfg.cancelAt f = true
      · rw [if_pos hcf]
        exact h2
      · rw [if_neg hcf]
        exact ih (f + 1) _ h2

theorem loopExport_last_write (cfg : Cfg) (hw : ∀ g, cfg.writeError g = none) :
    ∀ (n : ℕ) (f : Int) (s : LoopState), 0 < n →
      ((loopExport cfg n f s).state).writes.getLast? =
        some (((loopExport cfg n f s).state).maxFrame) := by
  intro n
  induction n with
  | zero => intro f s h; exact absurd h (by omega)
  | succ n ih =>
    intro f s _
    rw [loopExport_succ, hw f]
    dsimp only
    by_cases hcf : cfg.cancelAt f = true
    · rw [if_pos hcf]
      dsimp only [LoopExit.state]
      exact List.getLast?_concat _
    · rw [if_neg hcf]
      rcases Nat.eq_zero_or_pos n with rfl | hn
      · rw [loopExport_zero]
        dsimp only [LoopExit.state]
        exact List.getLast?_concat _
      · exact ih (f + 1) _ hn

theorem loopExport_lastEndTime (cfg : Cfg) :
    ∀ (n : ℕ) (f : Int) (s : LoopState), 0 < n →
      ((loopExport cfg n f s).state).lastEndTime.isSome = true := by
  intro n
  induction n with
  | zero => intro f s h; exact absurd h (by omega)
  | succ n ih =>
    intro f s _
    rw [loopExport_succ]
    have hsome : ({ tickPhase cfg f s with maxFrame := f } : LoopState).lastEndTime.isSome = true := by
      dsimp only
      rw [tickPhase_lastEndTime]
      rfl
    cases hwf : cfg.writeError f with
    | some msg => exact hsome
    | none =>
      dsimp only
      by_cases hcf : cfg.cancelAt f = true
      · rw [if_pos hcf]
        exact hsome
      · rw [if_neg hcf]
        rcases Nat.eq_zero_or_pos n with rfl | hn
        · rw [loopExport_zero]
          exact hsome
        · exact ih (f + 1) _ hn

theorem loopExport_order (cfg : Cfg) :
    ∀ (n : ℕ) (f : Int) (s : LoopState),
      List.Chain' (· < ·) (s.events.map (fun e => e.frame)) →
      (∀ e ∈ s.events, e.frame < f) →
      List.Chain' (· < ·) (((loopExport cfg n f s).state).events.map (fun e => e.frame)) ∧
      (∀ e ∈ ((loopExport cfg n f s).state).events, e.frame < f + n) ∧
      (0 < n → ∀ e ∈ ((loopExport cfg n f s).state).events,
        e.frame ≤ ((loopExport cfg n f s).state).maxFrame) := by
  intro n
  induction n with
  | zero =>
    intro f s hchain hbound
    exact ⟨hchain, fun e he => by have := hbound e he; push_cast; omega,
      fun h => absurd h (by omega)⟩
  | succ n ih =>
    intro f s hchain hbound
    have hchain1 : List.Chain' (· < ·) ((tickPhase cfg f s).events.map (fun e => e.frame)) := by
      rcases tickPhase_events cfg f s with he | ⟨ev, hf, _, he⟩
      · rw [he]; exact hchain
      · rw [he, List.map_append]
        rw [List.chain'_append]
        refine ⟨hchain, by simp, ?_⟩
        intro x hx y hy
        simp only [List.map_cons, List.map_nil, List.head?_cons, Option.mem_def,
          Option.some.injEq] at hy
        obtain ⟨ys, hys⟩ := List.getLast?_eq_some_iff.mp hx
        have hxmem : x ∈ s.events.map (fun e => e.frame) := by
          rw [hys]; simp
        obtain ⟨e, hme, hxe⟩ := List.mem_map.mp hxmem
        have := hbound e hme
        rw [← hy, hf, ← hxe]
        omega
    have hbound1 : ∀ e ∈ (tickPhase cfg f s).events, e.frame < f + 1 := by
      rcases tickPhase_events cfg f s with he | ⟨ev, hf, _, he⟩
      · rw [he]; intro e hme; have := hbound e hme; omega
      · rw [he]
        intro e hme
        rcases List.mem_append.mp hme with hm | hm
        · have := hbound e hm; omega
        · rw [List.mem_singleton.mp hm, hf]; omega
    have hboundmax : ∀ e ∈ (tickPhase cfg f s).events, e.frame ≤ f :=
      fun e hme => by have := hbound1 e hme; omega
    rw [loopExport_succ]
    cases hwf : cfg.writeError f with
    | some msg =>
      refine ⟨hchain1, fun e he => by have := hbound1 e he; push_cast; omega,
        fun _ => hboundmax⟩
    | none =>
      dsimp only
      by_cases hcf : cfg.cancelAt f = true
      · rw [if_pos hcf]
        refine ⟨hchain1, fun e he => by have := hbound1 e he; push_cast; omega,
          fun _ => hboundmax⟩
      · rw [if_neg hcf]
        rcases Nat.eq_zero_or_pos n with rfl | hn
        · rw [loopExport_zero]
          refine ⟨hchain1, fun e he => by have := hbound1 e he; push_cast; omega,
            fun _ => hboundmax⟩
        · obtain ⟨hc, hb, hm⟩ := ih (f + 1)
            { tickPhase cfg f s with maxFrame := f, writes := (tickPhase cfg f s).writes ++ [f] }
            hchain1 hbound1
          refine ⟨hc, fun e he => by have := hb e he; push_cast at this ⊢; omega, fun _ => hm hn⟩

theorem afterLoop_writes (cfg : Cfg) (b : Bool) (s : LoopState) :
    (afterLoop cfg b s).writes = s.writes := by
  unfold afterLoop
  cases s.lastEndTime <;> rfl

theorem afterLoop_of_isSome (cfg : Cfg) (b : Bool) (s : LoopState)
    (h : s.lastEndTime.isSome = true) :
    ∃ te : ℚ, s.lastEndTime = some te ∧
      afterLoop cfg b s =
        { writes := s.writes
          events := s.events ++
            [{ label := Title.elapsed (pyRound (te - s.startTime)) s.fpsEncode,
               startFrame := cfg.startFrame, endFrame := cfg.endFrame,
               frame := s.maxFrame, fmtDelta := s.fmtDelta }]
          outcome :=
            if b then .cancelled s.writes.length
            else .completed s.writes.length (pyRound (te - s.startTime))
          sinkCloseCount := 1
          cacheReleased := true } := by
  obtain ⟨te, hte⟩ := Option.isSome_iff_exists.mp h
  refine ⟨te, hte, ?_⟩
  unfold afterLoop
  rw [hte]

theorem run_writes (cfg : Cfg) :
    (run cfg).writes =
      ((loopExport cfg (cfg.endFrame + 1 - cfg.startFrame).toNat cfg.startFrame
        (initState cfg)).state).writes := by
  unfold run
  cases hE : loopExport cfg (cfg.endFrame + 1 - cfg.startFrame).toNat cfg.startFrame (initState cfg) with
  | finished s => dsimp only [LoopExit.state]; rw [afterLoop_writes]
  | canceled s => dsimp only [LoopExit.state]; rw [afterLoop_writes]
  | failedWrite msg s => rfl

theorem initState_stateOK (cfg : Cfg) : stateOK (initState cfg) :=
  ⟨rfl, by intro e he; simp [initState] at he⟩

theorem rangeLen_pos {a b : Int} (h : a < b) : 0 < (b + 1 - a).toNat := by omega

/-- C1: For every range with `start_frame < end_frame`, when the cancel flag
is never set and no sink write fails, the export loop calls `sink.write`
exactly `end_frame - start_frame + 1` times, once per frame, in strictly
increasing frame order from `start_frame` to `end_frame`. -/
theorem C1_write_sequence (cfg : Cfg) (h : cfg.startFrame < cfg.endFrame)
    (hc : ∀ g, cfg.cancelAt g = false) (hw : ∀ g, cfg.writeError g = none) :
    (run cfg).writes = frameSeq cfg.startFrame cfg.endFrame ∧
    (run cfg).writes.length = (cfg.endFrame - cfg.startFrame + 1).toNat ∧
    List.Chain' (· < ·) (run cfg).writes := by
  obtain ⟨s', h1, h2, _, _⟩ := loopExport_clean cfg hc hw
    (cfg.endFrame + 1 - cfg.startFrame).toNat cfg.startFrame (initState cfg)
  have hrw : (run cfg).writes = s'.writes := by
    rw [run_writes, h1]
    rfl
  have hwr : (run cfg).writes = frameSeq cfg.startFrame cfg.endFrame := by
    rw [hrw, h2]
    rw [show (initState cfg).writes = [] from rfl, List.nil_append]
    rfl
  refine ⟨hwr, ?_, ?_⟩
  · rw [hwr]
    unfold frameSeq
    rw [frameSeqN_length]
    omega
  · rw [hwr]
    exact frameSeqN_chain _ _

/-- Witness for C1 at the concrete range 1-3: frames 1, 2, 3 are written. -/
theorem C1_write_sequence_witness :
    (run cfgC1w).writes = frameSeq 1 3 ∧
    (run cfgC1w).writes.length = ((3 : Int) - 1 + 1).toNat ∧
    List.Chain' (· < ·) (run cfgC1w).writes :=
  C1_write_sequence cfgC1w (by decide) (fun _ => rfl) (fun _ => rfl)

/-- C3: For every run in which the cancel flag becomes set during the
processing of frame `k` (`start_frame ≤ k < end_frame`), the loop completes
the in-flight write of frame `k`, performs no writes for any frame `> k`,
and returns `Cancelled` with `frames_written = k - start_frame + 1`. -/
theorem C3_cancellation (cfg : Cfg) (k : Int)
    (h1 : cfg.startFrame ≤ k) (h2 : k < cfg.endFrame)
    (hw : ∀ g, cfg.writeError g = none)
    (hc : ∀ g, cfg.cancelAt g = decide (k ≤ g)) :
    (run cfg).writes = frameSeq cfg.startFrame k ∧
    (run cfg).outcome = .cancelled (k - cfg.startFrame + 1).toNat ∧
    ∀ f ∈ (run cfg).writes, f ≤ k := by
  obtain ⟨s', hE, hwr, _, hsome⟩ := loopExport_cancel cfg k hw hc
    (cfg.endFrame + 1 - cfg.startFrame).toNat cfg.startFrame (initState cfg)
    h1 (by omega)
  have hwrites : (run cfg).writes = frameSeq cfg.startFrame k := by
    rw [run_writes, hE]
    dsimp only [LoopExit.state]
    rw [hwr, show (initState cfg).writes = [] from rfl, List.nil_append]
    rfl
  obtain ⟨te, _, hAL⟩ := afterLoop_of_isSome cfg true s' hsome
  have hrun : run cfg = afterLoop cfg true s' := by
    unfold run
    rw [hE]
  refine ⟨hwrites, ?_, ?_⟩
  · rw [hrun, hAL]
    dsimp only
    rw [if_pos rfl, hwr, show (initState cfg).writes = [] from rfl, List.nil_append,
      frameSeqN_length]
    congr 1
    omega
  · intro f hf
    rw [hwrites] at hf
    unfold frameSeq at hf
    have := frameSeqN_mem_le hf
    omega

/-- Witness for C3 at the concrete range 1-4 with the flag set while frame 2
is processed: frames 1, 2 are written and the outcome is `Cancelled 2`. -/
theorem C3_cancellation_witness :
    (run cfgC3w).writes = frameSeq 1 2 ∧
    (run cfgC3w).outcome = .cancelled ((2 : Int) - 1 + 1).toNat ∧
    ∀ f ∈ (run cfgC3w).writes, f ≤ 2 :=
  C3_cancellation cfgC3w 2 (by decide) (by decide) (fun _ => rfl) (fun _ => rfl)

/-- C10: For every export run that enters the frame loop, the write of the
current frame happens before the cancel flag is consulted in that iteration;
hence even if the cancel flag is already set before the loop begins, at
least one frame (`start_frame`) is written and `frames_written ≥ 1`. -/
theorem C10_write_before_cancel (cfg : Cfg) (h : cfg.startFrame < cfg.endFrame)
    (hw : cfg.writeError cfg.startFrame = none) :
    (run cfg).writes.head? = some cfg.startFrame ∧ 1 ≤ (run cfg).writes.length := by
  obtain ⟨t, ht⟩ := loopExport_first_write cfg
    (cfg.endFrame + 1 - cfg.startFrame).toNat cfg.startFrame (initState cfg)
    (rangeLen_pos h) hw
  rw [run_writes, ht, show (initState cfg).writes = [] from rfl, List.nil_append]
  exact ⟨rfl, by simp⟩

/-- Witness for C10 at the concrete range 1-3 with the cancel flag already
set before the loop: frame 1 is still written. -/
theorem C10_write_before_cancel_witness :
    (run cfgC10w).writes.head? = some 1 ∧ 1 ≤ (run cfgC10w).writes.length :=
  C10_write_before_cancel cfgC10w (by decide) rfl

/-- C2 counterexample: in the concrete attempt `cfgC2x` the write of frame 2
fails, the error is classified and surfaced — but `w.Close()` never runs
(`sinkCloseCount = 0`, not exactly once), refuting the claim that the loop
closes the sink before surfacing a write error. -/
theorem C2_counterexample :
    (run cfgC2x).outcome = .failed .invalidChannels ("InvalidChannels".toList) ∧
    (run cfgC2x).sinkCloseCount = 0 := by
  norm_num [run, loopExport, tickPhase, initState, progressstep, pyRound, pyFloor, cfgC2x]
  decide

/-- C2 (amended): for every export attempt in which a sink write fails at
some frame, the render-side cache resource is released before the method
returns and the original error is surfaced (its classification and its
cleaned message become the failure outcome), but the sink is NOT closed:
`w.Close()` sits after the loop inside the `try` block, so the exception
path skips it. -/
theorem C2_cleanup_on_failure (cfg : Cfg) (k : Int) (msg : Msg)
    (h1 : cfg.startFrame ≤ k) (h2 : k ≤ cfg.endFrame)
    (hk : cfg.writeError k = some msg)
    (hbefore : ∀ g, cfg.startFrame ≤ g → g < k →
      cfg.writeError g = none ∧ cfg.cancelAt g = false) :
    (run cfg).outcome = .failed (classify msg) (friendlyError msg) ∧
    (run cfg).cacheReleased = true ∧
    (run cfg).sinkCloseCount = 0 := by
  obtain ⟨s', hE⟩ := loopExport_fail cfg k msg hk
    (cfg.endFrame + 1 - cfg.startFrame).toNat cfg.startFrame (initState cfg)
    h1 (by omega) hbefore
  have hrun : run cfg =
      { writes := s'.writes
        events := s'.events
        outcome := .failed (classify msg) (friendlyError msg)
        sinkCloseCount := 0
        cacheReleased := true } := by
    unfold run
    rw [hE]
  rw [hrun]
  exact ⟨rfl, rfl, rfl⟩

/-- Witness for the amended C2 at the concrete attempt `cfgC2x`: frame 2
fails with the `InvalidChannels` marker, the cache is released, the sink is
never closed. -/
theorem C2_cleanup_on_failure_witness :
    (run cfgC2x).outcome =
      .failed (classify ("InvalidChannels".toList)) (friendlyError ("InvalidChannels".toList)) ∧
    (run cfgC2x).cacheReleased = true ∧
    (run cfgC2x).sinkCloseCount = 0 :=
  C2_cleanup_on_failure cfgC2x 2 ("InvalidChannels".toList) (by decide) (by decide)
    (by norm_num [cfgC2x])
    (fun g hg1 hg2 => by
      have hg1' : (1 : Int) ≤ g := hg1
      have hg : g = 1 := by omega
      subst hg
      exact ⟨by norm_num [cfgC2x], rfl⟩)

theorem run_noFail_afterLoop (cfg : Cfg) (hw : ∀ g, cfg.writeError g = none) :
    ∃ b : Bool, run cfg = afterLoop cfg b
      ((loopExport cfg (cfg.endFrame + 1 - cfg.startFrame).toNat cfg.startFrame
        (initState cfg)).state) := by
  rcases loopExport_noFail cfg hw (cfg.endFrame + 1 - cfg.startFrame).toNat
      cfg.startFrame (initState cfg) with ⟨s', hE⟩ | ⟨s', hE⟩
  · refine ⟨false, ?_⟩
    unfold run
    rw [hE]
    rfl
  · refine ⟨true, ?_⟩
    unfold run
    rw [hE]
    rfl

/-- C4: For every run that completes normally or is cancelled, exactly one
final progress event is emitted after the loop, carrying an "elapsed" label
(not "remaining"), and its `frame` field equals the last frame actually
written, regardless of throttling. -/
theorem C4_final_event (cfg : Cfg) (h : cfg.startFrame < cfg.endFrame)
    (hw : ∀ g, cfg.writeError g = none) :
    (run cfg).events.countP (fun e => e.label.isElapsed) = 1 ∧
    ∃ ev, (run cfg).events.getLast? = some ev ∧ ev.label.isElapsed = true ∧
      (run cfg).writes.getLast? = some ev.frame := by
  have hn := rangeLen_pos h
  obtain ⟨b, hrun⟩ := run_noFail_afterLoop cfg hw
  have hOK : stateOK ((loopExport cfg (cfg.endFrame + 1 - cfg.startFrame).toNat
      cfg.startFrame (initState cfg)).state) :=
    loopExport_stateOK cfg _ _ _ (initState_stateOK cfg)
  have hlw := loopExport_last_write cfg hw (cfg.endFrame + 1 - cfg.startFrame).toNat
    cfg.startFrame (initState cfg) hn
  have hsome := loopExport_lastEndTime cfg (cfg.endFrame + 1 - cfg.startFrame).toNat
    cfg.startFrame (initState cfg) hn
  obtain ⟨te, _, hAL⟩ := afterLoop_of_isSome cfg b _ hsome
  rw [hrun, hAL]
  dsimp only
  constructor
  · rw [List.countP_append]
    rw [List.countP_eq_zero.mpr (by intro a ha; simp [hOK.2 a ha])]
    rfl
  · exact ⟨_, List.getLast?_concat _, rfl, hlw⟩

/-- Witness for C4 at the concrete range 2-4: the last event carries the
elapsed label and frame 4. -/
theorem C4_final_event_witness :
    (run cfgC4w).events.countP (fun e => e.label.isElapsed) = 1 ∧
    ∃ ev, (run cfgC4w).events.getLast? = some ev ∧ ev.label.isElapsed = true ∧
      (run cfgC4w).writes.getLast? = some ev.frame :=
  C4_final_event cfgC4w (by decide) (fun _ => rfl)

/-- C6 counterexample: in the concrete attempt `cfgC6x` (range 1-2,
`progressstep = 1`) the last loop iteration is itself a display tick, so the
unconditional final event repeats frame 2 and the delivered frame sequence
1, 2, 2 is not strictly increasing. -/
theorem C6_counterexample :
    ¬ List.Chain' (· < ·) ((run cfgC6x).events.map (fun e => e.frame)) := by
  norm_num [run, loopExport, tickPhase, initState, progressstep, pyRound, pyFloor,
    afterLoop, cfgC6x]

/-- C6 (amended): for every run with no write failure, progress events are
delivered in non-decreasing frame order — strictly increasing among the
throttled in-loop events — and the final event is always delivered (the
event list is non-empty and closed by the final event), though its frame
can repeat the last in-loop event's frame when the last frame was itself a
display tick. -/
theorem C6_event_order (cfg : Cfg) (h : cfg.startFrame < cfg.endFrame)
    (hw : ∀ g, cfg.writeError g = none) :
    List.Chain' (· ≤ ·) ((run cfg).events.map (fun e => e.frame)) ∧
    List.Chain' (· < ·) (((run cfg).events.dropLast).map (fun e => e.frame)) ∧
    (run cfg).events ≠ [] := by
  have hn := rangeLen_pos h
  obtain ⟨b, hrun⟩ := run_noFail_afterLoop cfg hw
  obtain ⟨hchain, _, hmax⟩ := loopExport_order cfg
    (cfg.endFrame + 1 - cfg.startFrame).toNat cfg.startFrame (initState cfg)
    (by simp [initState]) (by simp [initState])
  have hsome := loopExport_lastEndTime cfg (cfg.endFrame + 1 - cfg.startFrame).toNat
    cfg.startFrame (initState cfg) hn
  obtain ⟨te, _, hAL⟩ := afterLoop_of_isSome cfg b _ hsome
  rw [hrun, hAL]
  dsimp only
  refine ⟨?_, ?_, by simp⟩
  · rw [List.map_append, List.chain'_append]
    refine ⟨hchain.imp (fun _ _ hab => le_of_lt hab), by simp, ?_⟩
    intro x hx y hy
    simp only [List.map_cons, List.map_nil, List.head?_cons, Option.mem_def,
      Option.some.injEq] at hy
    obtain ⟨ys, hys⟩ := List.getLast?_eq_some_iff.mp hx
    have hxmem : x ∈ (loopExport cfg (cfg.endFrame + 1 - cfg.startFrame).toNat
        cfg.startFrame (initState cfg)).state.events.map (fun e => e.frame) := by
      rw [hys]; simp
    obtain ⟨e, hme, hxe⟩ := List.mem_map.mp hxmem
    have := hmax hn e hme
    rw [← hy, ← hxe]
    exact this
  · rw [List.dropLast_concat]
    exact hchain

/-- Witness for the amended C6 at the concrete attempt `cfgC6x`. -/
theorem C6_event_order_witness :
    List.Chain' (· ≤ ·) ((run cfgC6x).events.map (fun e => e.frame)) ∧
    List.Chain' (· < ·) (((run cfgC6x).events.dropLast).map (fun e => e.frame)) ∧
    (run cfgC6x).events ≠ [] :=
  C6_event_order cfgC6x (by decide) (fun _ => rfl)

/-- C5: For every display tick of the estimator, when
`delta = fraction_done - last_displayed_fraction` is positive, the digit
count equals `clamp(ceil(-2 - log10(delta)), 1, 5)`; when `delta ≤ 0` the
digit count is `1`; consequently the digits output always lies in `[1, 5]`. -/
theorem C5_digits (delta : ℝ) :
    (0 < delta → digits_after_decimalpoint delta =
      max 1 (min 5 ⌈(-2 : ℝ) - Real.logb 10 delta⌉)) ∧
    (delta ≤ 0 → digits_after_decimalpoint delta = 1) ∧
    1 ≤ digits_after_decimalpoint delta ∧ digits_after_decimalpoint delta ≤ 5 := by
  unfold digits_after_decimalpoint
  dsimp only
  rcases lt_or_le 0 delta with hd | hd
  · rw [if_pos hd]
    refine ⟨fun _ => ?_, fun hneg => absurd hd (not_lt.mpr hneg), ?_, ?_⟩
    · rw [max_def, min_def]
      split_ifs <;> omega
    · split_ifs <;> omega
    · split_ifs <;> omega
  · rw [if_neg (not_lt.mpr hd)]
    refine ⟨fun hpos => absurd hpos (not_lt.mpr hd), fun _ => ?_, ?_, ?_⟩ <;> norm_num

/-- Witness for C5 at `delta = -1` (a skipped-backwards tick): one digit. -/
theorem C5_digits_witness :
    digits_after_decimalpoint (-1) = 1 ∧
    1 ≤ digits_after_decimalpoint (-1) ∧ digits_after_decimalpoint (-1) ≤ 5 :=
  ⟨(C5_digits (-1)).2.1 (by norm_num), (C5_digits (-1)).2.2.1, (C5_digits (-1)).2.2.2⟩

theorem takeUntilSep_eq_self {msg : Msg} (h : pyIn ("> ".toList) msg = false) :
    takeUntilSep msg = msg := by
  induction msg with
  | nil => rfl
  | cons c rest ih =>
    simp only [pyIn, Bool.or_eq_false_iff] at h
    rw [takeUntilSep, if_neg (by rw [h.1]; exact Bool.false_ne_true), ih h.2]

theorem filter_no_langle {msg : Msg} (h : pyIn ("<".toList) msg = false) :
    msg.filter (fun c => c ≠ '<') = msg := by
  induction msg with
  | nil => rfl
  | cons c rest ih =>
    simp only [pyIn, Bool.or_eq_false_iff] at h
    obtain ⟨h1, h2⟩ := h
    have hc : c ≠ '<' := by
      intro hEq
      subst hEq
      simp [List.isPrefixOf] at h1
    rw [List.filter_cons, if_pos (by simp [hc]), ih h2]

/-- C7 counterexample: the marker-free message `"<foo> bar"` is classified
as the generic unknown kind, but the surfaced detail is not the raw message
(the code truncates at `"> "` and strips `"<"`), refuting "the raw message
preserved as detail". -/
theorem C7_counterexample :
    classify msgC7x = .unknown ∧ friendlyError msgC7x ≠ msgC7x := by
  decide

/-- C7 (amended): a sink failure is classified by inspecting its message in
the order of the `elif` chain — channel-count mismatch, sample-rate
mismatch, unsupported format, unsupported codec, encode failure — each
marker mapping to its own distinct kind, and any unrecognized failure maps
to the generic unknown kind; the surfaced detail is the message truncated at
the first `"> "` with all `"<"` characters removed, which coincides with the
raw message exactly when the message contains neither. -/
theorem C7_classification (msg : Msg) :
    (pyIn ("InvalidChannels".toList) msg = true → classify msg = .invalidChannels) ∧
    (pyIn ("InvalidChannels".toList) msg = false →
      pyIn ("InvalidSampleRate".toList) msg = true → classify msg = .invalidSampleRate) ∧
    (pyIn ("InvalidChannels".toList) msg = false →
      pyIn ("InvalidSampleRate".toList) msg = false →
      pyIn ("InvalidFormat".toList) msg = true → classify msg = .invalidFormat) ∧
    (pyIn ("InvalidChannels".toList) msg = false →
      pyIn ("InvalidSampleRate".toList) msg = false →
      pyIn ("InvalidFormat".toList) msg = false →
      pyIn ("InvalidCodec".toList) msg = true → classify msg = .invalidCodec) ∧
    (pyIn ("InvalidChannels".toList) msg = false →
      pyIn ("InvalidSampleRate".toList) msg = false →
      pyIn ("InvalidFormat".toList) msg = false →
      pyIn ("InvalidCodec".toList) msg = false →
      pyIn ("ErrorEncodingVideo".toList) msg = true → classify msg = .errorEncodingVideo) ∧
    (pyIn ("InvalidChannels".toList) msg = false →
      pyIn ("InvalidSampleRate".toList) msg = false →
      pyIn ("InvalidFormat".toList) msg = false →
      pyIn ("InvalidCodec".toList) msg = false →
      pyIn ("ErrorEncodingVideo".toList) msg = false → classify msg = .unknown) ∧
    (pyIn ("<".toList) msg = false → pyIn ("> ".toList) msg = false →
      friendlyError msg = msg) ∧
    List.Nodup [FailureKind.invalidChannels, .invalidSampleRate, .invalidFormat,
      .invalidCodec, .errorEncodingVideo, .unknown] := by
  refine ⟨?_, ?_, ?_, ?_, ?_, ?_, ?_, by decide⟩
  · intro h1
    unfold classify
    rw [if_pos h1]
  · intro h1 h2
    unfold classify
    rw [if_neg (by rw [h1]; exact Bool.false_ne_true), if_pos h2]
  · intro h1 h2 h3
    unfold classify
    rw [if_neg (by rw [h1]; exact Bool.false_ne_true),
      if_neg (by rw [h2]; exact Bool.false_ne_true), if_pos h3]
  · intro h1 h2 h3 h4
    unfold classify
    rw [if_neg (by rw [h1]; exact Bool.false_ne_true),
      if_neg (by rw [h2]; exact Bool.false_ne_true),
      if_neg (by rw [h3]; exact Bool.false_ne_true), if_pos h4]
  · intro h1 h2 h3 h4 h5
    unfold classify
    rw [if_neg (by rw [h1]; exact Bool.false_ne_true),
      if_neg (by rw [h2]; exact Bool.false_ne_true),
      if_neg (by rw [h3]; exact Bool.false_ne_true),
      if_neg (by rw [h4]; exact Bool.false_ne_true), if_pos h5]
  · intro h1 h2 h3 h4 h5
    unfold classify
    rw [if_neg (by rw [h1]; exact Bool.false_ne_true),
      if_neg (by rw [h2]; exact Bool.false_ne_true),
      if_neg (by rw [h3]; exact Bool.false_ne_true),
      if_neg (by rw [h4]; exact Bool.false_ne_true),
      if_neg (by rw [h5]; exact Bool.false_ne_true)]
  · intro h1 h2
    unfold friendlyError
    rw [takeUntilSep_eq_self h2, filter_no_langle h1]

/-- Witness for the amended C7: a message carrying only the `InvalidCodec`
marker gets the codec kind, and a marker-free plain message survives
`friendly_error` unchanged. -/
theorem C7_classification_witness :
    classify msgC7w = .invalidCodec ∧ friendlyError msgC7p = msgC7p :=
  ⟨(C7_classification msgC7w).2.2.2.1 (by decide) (by decide) (by decide) (by decide),
   (C7_classification msgC7p).2.2.2.2.2.2.1 (by decide) (by decide)⟩

/-- C8: For every estimator call with `current_frame > start_frame` and
`now ≥ start_time`, the implemented sign-inverted formula
`round((start_time - now) * (current_frame - end_frame) / (current_frame - start_frame))`
equals `round(elapsed * frames_remaining / frames_done)` with
`elapsed = now - start_time`, `frames_remaining = end_frame - current_frame`
(as a signed count, `end_frame - current_frame`), and
`frames_done = current_frame - start_frame`. -/
theorem C8_eta_equivalence (startTime now : ℚ) (frame endF startF : Int)
    (_h1 : startF < frame) (_h2 : startTime ≤ now) :
    seconds_left startTime now frame endF startF =
      pyRound ((now - startTime) * ((endF : ℚ) - (frame : ℚ)) / ((frame : ℚ) - (startF : ℚ))) := by
  unfold seconds_left
  congr 1
  ring

/-- Witness for C8 at `start_time = 0`, `now = 10`, frames `1 < 5 < 9`. -/
theorem C8_eta_equivalence_witness :
    seconds_left 0 10 5 9 1 =
      pyRound ((10 - 0) * (((9 : Int) : ℚ) - ((5 : Int) : ℚ)) / (((5 : Int) : ℚ) - ((1 : Int) : ℚ))) :=
  C8_eta_equivalence 0 10 5 9 1 (by decide) (by norm_num)

/-- C9: The computation of
`fraction_done = (current_frame - start_frame) / (end_frame - start_frame)`
is guarded against division by zero, and a single-frame export reports a
fraction of 100%: `updateProgressBar` falls back to the literal `"100%"`
when `end_frame - start_frame` is not positive, and `accept` rejects an
equal-bounds range before the export loop (and its unguarded division at
line 1039) can run. -/
theorem C9_division_guard (cfg : Cfg) (currentF : Int)
    (h : cfg.startFrame = cfg.endFrame) :
    updateProgressBar cfg.startFrame cfg.endFrame currentF = .hundred ∧
    accept cfg = none := by
  constructor
  · unfold updateProgressBar
    rw [if_neg (by omega)]
  · unfold accept
    rw [if_pos h]

/-- Witness for C9 at the spec's scenario 100-100. -/
theorem C9_division_guard_witness :
    updateProgressBar 100 100 100 = .hundred ∧ accept cfgC9w = none :=
  C9_division_guard cfgC9w 100 rfl

end EVO
